import Mathlib

/-!
Shallow embedding of the classroom help-queue application (src/app.py).

The external spreadsheet is modelled as a `Store`: row 1 (the header) as a
list of cell strings, and the data rows (rows 2 and beyond) as structured
`HelpRow` records following the fixed column layout
`id | name | rating | timestamp | status`.  Every data row the program ever
writes has exactly this shape (`add_help_request` appends
`[request_id, name, int(rating), now, "pending"]`), and `get_all_records`
keys the cells by the header, which `ensure_headers` maintains, so records
are embedded as typed rows: `id`, `name`, `timestamp`, `status` as strings
(`timestamp` an ISO-8601 UTC string, which sorts lexicographically) and
`rating` as an integer (gspread converts numeric cells to `int`).

Nondeterministic inputs of the source (`uuid.uuid4()` and
`datetime.utcnow()`) are passed as explicit parameters `request_id` and
`now`; freshness of a uuid is a hypothesis where a claim needs it.
-/

/-- One data row of the sheet, in the fixed column order
`id | name | rating | timestamp | status`. -/
structure HelpRow where
  id : String
  name : String
  rating : Int
  timestamp : String
  status : String
  deriving DecidableEq, Repr

/-- The sheet: row 1 (`header`, a list of cell strings, trailing empty cells
omitted as `gspread.row_values` does) and the data rows (rows 2+). -/
structure Store where
  header : List String
  rows : List HelpRow
  deriving DecidableEq, Repr

/-- The fixed header schema, `expected` in `ensure_headers` (app.py line 48). -/
def expectedHeaders : List String := ["id", "name", "rating", "timestamp", "status"]

/-- Embeds `ensure_headers` (app.py lines 45-50): read row 1; if it is not
exactly the expected list, `ws.update("A1:E1", [expected])`, which overwrites
cells A1 through E1 only — cells of row 1 beyond column E are left in place,
hence the `++ s.header.drop 5`. -/
def ensure_headers (s : Store) : Store :=
  if s.header = expectedHeaders then s
  else { s with header := expectedHeaders ++ s.header.drop 5 }

/-- Whether `ensure_headers` performs a write on store `s`: it calls
`ws.update` exactly when row 1 differs from the expected header. -/
def ensure_headers_writes (s : Store) : Bool :=
  !(s.header == expectedHeaders)

/-- Embeds `add_help_request` (app.py lines 55-63): ensure headers, then
append the row `[request_id, name, int(rating), now, "pending"]`.  The
generated uuid and timestamp are the parameters `request_id` and `now`.
There is no validation of `name` or `rating` in the source. -/
def add_help_request (name : String) (rating : Int) (request_id now : String)
    (s : Store) : Store :=
  let s1 := ensure_headers s
  { s1 with rows := s1.rows ++
      [{ id := request_id, name := name, rating := rating,
         timestamp := now, status := "pending" }] }

/-- Embeds the value returned by `load_requests` (app.py lines 66-74): after
`ensure_headers`, `get_all_records` returns the data rows in store order (an
empty store gives the empty frame).  `ensure_headers` never touches data
rows, so the records are exactly `s.rows`. -/
def load_requests (s : Store) : List HelpRow :=
  (ensure_headers s).rows

/-- The row update performed by `mark_as_helped` (app.py lines 77-85): scan
the records in store order; at the first row whose `id` cell equals
`request_id`, write `"helped"` into column 5 (the `status` cell) and stop
(`break`); otherwise leave the row as it is. -/
def mark_rows (request_id : String) : List HelpRow → List HelpRow
  | [] => []
  | r :: rest =>
    if r.id = request_id then { r with status := "helped" } :: rest
    else r :: mark_rows request_id rest

/-- Embeds `mark_as_helped` (app.py lines 77-85).  It does not call
`ensure_headers` and never touches row 1; `update_cell(idx, 5, _)` writes
only the status cell of the matched data row. -/
def mark_as_helped (request_id : String) (s : Store) : Store :=
  { s with rows := mark_rows request_id s.rows }

/-- Embeds `clear_all` (app.py lines 88-90): `ws.resize(rows=1)` deletes all
rows from row 2 on and leaves row 1 exactly as it is. -/
def clear_all (s : Store) : Store :=
  { s with rows := [] }

/-- The filter `df[df["status"] == "pending"]` of `show_instructor_view`
(app.py line 143). -/
def pendingOnly (rows : List HelpRow) : List HelpRow :=
  rows.filter (fun r => r.status == "pending")

/-- The sort key order of `df_pending.sort_values(["rating", "timestamp"])`
(app.py line 150): non-decreasing lexicographically in
(rating, timestamp). -/
def reqLE (a b : HelpRow) : Prop :=
  a.rating < b.rating ∨ (a.rating = b.rating ∧ a.timestamp ≤ b.timestamp)

instance : DecidableRel reqLE := fun a b =>
  decidable_of_iff
    (a.rating < b.rating ∨ (a.rating = b.rating ∧ a.timestamp.toList ≤ b.timestamp.toList))
    (by rw [← String.le_iff_toList_le]; exact Iff.rfl)

instance : IsTotal HelpRow reqLE where
  total a b := by
    rcases lt_trichotomy a.rating b.rating with h | h | h
    · exact Or.inl (Or.inl h)
    · rcases le_total a.timestamp b.timestamp with ht | ht
      · exact Or.inl (Or.inr ⟨h, ht⟩)
      · exact Or.inr (Or.inr ⟨h.symm, ht⟩)
    · exact Or.inr (Or.inl h)

instance : IsTrans HelpRow reqLE where
  trans a b c hab hbc := by
    rcases hab with h1 | ⟨e1, t1⟩
    · rcases hbc with h2 | ⟨e2, _⟩
      · exact Or.inl (h1.trans h2)
      · exact Or.inl (e2 ▸ h1)
    · rcases hbc with h2 | ⟨e2, t2⟩
      · exact Or.inl (e1 ▸ h2)
      · exact Or.inr ⟨e1.trans e2, t1.trans t2⟩

/-- Embeds the pending list computed by `show_instructor_view` (app.py lines
133-157): load the records, keep `status == "pending"`, sort by
`(rating, timestamp)` ascending.  `pandas.sort_values` on several columns
uses `numpy.lexsort`, a stable sort; a stable sort by a total preorder is
extensionally unique, so it is embedded as insertion sort by `reqLE`, which
is stable (`orderedInsert` puts the new front element before every element
it compares less-or-equal to, and front elements are earlier in store
order). -/
def listPending (s : Store) : List HelpRow :=
  List.insertionSort reqLE (pendingOnly (load_requests s))

/-!
Name binding in `show_student_view` (app.py lines 120-128), for the claim
about the submission call `add_help_request(name, rating)`.  Python resolves
a name in a function body against the local scope, then the module globals,
then the builtins.
-/

/-- The names bound at module level in app.py: the imports (lines 1-7), the
configuration constants (lines 12-23) and the module functions. -/
def appModuleNames : List String :=
  ["st", "pd", "gspread", "Credentials", "datetime", "uuid", "json",
   "STUDENTS", "STUDENT_LEVELS", "SHEET_NAME",
   "get_worksheet", "ensure_headers", "add_help_request", "load_requests",
   "mark_as_helped", "clear_all",
   "show_login", "show_student_level", "show_student_view",
   "show_instructor_view", "main"]

/-- The local names assigned anywhere in the body of `show_student_view`
(app.py lines 120-128): only `name` (line 123). -/
def show_student_view_locals : List String := ["name"]

/-- The variable names referenced by the call `add_help_request(name, rating)`
on app.py line 127: the function and its two arguments. -/
def show_student_view_submit_refs : List String :=
  ["add_help_request", "name", "rating"]

/-- All names bound in the scope of `show_student_view`: its locals plus the
module globals.  (`rating` is also not a Python builtin, so these are the
only scopes that could bind it.) -/
def show_student_view_bound : List String :=
  show_student_view_locals ++ appModuleNames

/-! ### Basic lemmas about the store operations -/

/-- `ensure_headers` writes only row 1; the data rows are untouched. -/
theorem ensure_headers_rows (s : Store) : (ensure_headers s).rows = s.rows := by
  unfold ensure_headers
  split <;> rfl

/-- The records returned by `load_requests` are the data rows of the store. -/
theorem load_requests_eq (s : Store) : load_requests s = s.rows := by
  unfold load_requests
  exact ensure_headers_rows s

/-- Row 1 after `ensure_headers`: the five schema cells followed by whatever
stood in row 1 beyond column E (for a correct header, `drop 5` is empty and
the header is unchanged). -/
theorem ensure_headers_header (s : Store) :
    (ensure_headers s).header = expectedHeaders ++ s.header.drop 5 := by
  unfold ensure_headers
  split
  · rename_i h
    rw [h]
    rfl
  · rfl

/-- `mark_rows` on a list in which no row carries the wanted id is the
identity. -/
theorem mark_rows_of_not_mem (i : String) :
    ∀ l : List HelpRow, (∀ r ∈ l, r.id ≠ i) → mark_rows i l = l
  | [], _ => rfl
  | r :: rest, h => by
    have hr : r.id ≠ i := h r (List.mem_cons_self r rest)
    have hrest := mark_rows_of_not_mem i rest (fun x hx => h x (List.mem_cons_of_mem r hx))
    simp [mark_rows, hr, hrest]

/-- Writing `"helped"` a second time hits the same row and changes nothing:
`mark_rows` is idempotent. -/
theorem mark_rows_idem (i : String) :
    ∀ l : List HelpRow, mark_rows i (mark_rows i l) = mark_rows i l
  | [] => rfl
  | r :: rest => by
    by_cases h : r.id = i
    · simp [mark_rows, h]
    · simp [mark_rows, h, mark_rows_idem i rest]

/-- Claim C1 counterexample: `add_help_request` with the empty name and the
out-of-range rating 0 does not fail and does append a row — there is no
validation in the source, contradicting the claimed `ValidationError`. -/
theorem add_help_request_no_validation_cex :
    (add_help_request "" 0 "id0" "t0" { header := expectedHeaders, rows := [] }).rows =
      [{ id := "id0", name := "", rating := 0, timestamp := "t0", status := "pending" }] := by
  decide

/-- Claim C1 (amended): `add_help_request` performs no validation at all.
For every name (empty included) and every integer rating (0 and 11
included, just like 1 and 10), it always succeeds and appends exactly the
row `[request_id, name, rating, now, "pending"]`; no `ValidationError`
exists in the source. -/
theorem add_help_request_always_appends (nm : String) (rating : Int)
    (request_id now : String) (s : Store) :
    (add_help_request nm rating request_id now s).rows =
      s.rows ++ [{ id := request_id, name := nm, rating := rating,
                   timestamp := now, status := "pending" }] := by
  simp [add_help_request, ensure_headers_rows]

/-- Claim C2: the submission call `add_help_request(name, rating)` on
app.py line 127 references the variable `rating`, which is bound neither in
the locals of `show_student_view` nor at module level (nor is it a Python
builtin): pressing the Request-Help button raises `NameError`, so the call
is not well-defined. -/
theorem show_student_view_rating_unbound :
    "rating" ∈ show_student_view_submit_refs ∧
      "rating" ∉ show_student_view_bound := by
  decide

/-- Claim C7: when no row of the store carries the requested id, the scan of
`mark_as_helped` finds nothing, `update_cell` is never called and no error
is raised: the store is exactly the same after the call. -/
theorem mark_as_helped_noop (i : String) (s : Store)
    (h : ∀ row ∈ s.rows, row.id ≠ i) :
    mark_as_helped i s = s := by
  unfold mark_as_helped
  rw [mark_rows_of_not_mem i s.rows h]

/-- Claim C7 witness: a concrete two-row store with no row of id `"Z"` is
unchanged by `mark_as_helped "Z"`. -/
theorem mark_as_helped_noop_witness :
    mark_as_helped "Z"
        { header := expectedHeaders,
          rows := [{ id := "a", name := "A", rating := 4, timestamp := "t1", status := "pending" },
                   { id := "b", name := "B", rating := 6, timestamp := "t2", status := "helped" }] } =
      { header := expectedHeaders,
        rows := [{ id := "a", name := "A", rating := 4, timestamp := "t1", status := "pending" },
                 { id := "b", name := "B", rating := 6, timestamp := "t2", status := "helped" }] } :=
  mark_as_helped_noop "Z" _ (by decide)

/-- Claim C10: `clear_all` (`ws.resize(rows=1)`) removes rows 2 and beyond
and never rewrites row 1: the header cells survive exactly as they were —
also when they differ from the fixed schema, in which case the wrong header
is still there after the reset. -/
theorem clear_all_keeps_header (s : Store) :
    (clear_all s).header = s.header ∧ (clear_all s).rows = [] ∧
      (s.header ≠ expectedHeaders → (clear_all s).header ≠ expectedHeaders) := by
  refine ⟨rfl, rfl, ?_⟩
  intro h
  exact h

/-- Claim C10 witness: a store with the wrong header `["wrong"]` still has
header `["wrong"]` after `clear_all`, and no data rows. -/
theorem clear_all_keeps_header_witness :
    (clear_all { header := ["wrong"], rows := [] }).header = ["wrong"] ∧
      (clear_all { header := ["wrong"], rows := [] }).rows = [] ∧
      ((["wrong"] : List String) ≠ expectedHeaders →
        (clear_all { header := ["wrong"], rows := [] }).header ≠ expectedHeaders) := by
  have h := clear_all_keeps_header { header := ["wrong"], rows := [] }
  exact h

/-- Claim C9: starting from a store with the correct header, `clear_all`
leaves no data rows — `listPending` returns the empty sequence — and the
header row still equals the fixed schema. -/
theorem clear_all_then_listPending_empty (s : Store) (h : s.header = expectedHeaders) :
    listPending (clear_all s) = [] ∧ (clear_all s).header = expectedHeaders := by
  constructor
  · simp [listPending, load_requests, clear_all, ensure_headers, pendingOnly, h]
  · simpa [clear_all] using h

/-- Claim C9 witness: resetting a concrete store with one pending row gives
an empty pending list and the schema header. -/
theorem clear_all_then_listPending_empty_witness :
    listPending (clear_all
        { header := expectedHeaders,
          rows := [{ id := "a", name := "A", rating := 4, timestamp := "t1", status := "pending" }] }) = [] ∧
      (clear_all
        { header := expectedHeaders,
          rows := [{ id := "a", name := "A", rating := 4, timestamp := "t1", status := "pending" }] }).header =
        expectedHeaders :=
  clear_all_then_listPending_empty _ (by decide)

/-- Unfolding of `ensure_headers` when row 1 already matches. -/
theorem ensure_headers_of_eq (s : Store) (h : s.header = expectedHeaders) :
    ensure_headers s = s := by
  unfold ensure_headers
  rw [if_pos h]

/-- Unfolding of `ensure_headers` when row 1 differs. -/
theorem ensure_headers_of_ne (s : Store) (h : s.header ≠ expectedHeaders) :
    ensure_headers s = { s with header := expectedHeaders ++ s.header.drop 5 } := by
  unfold ensure_headers
  rw [if_neg h]

/-- Claim C8 counterexample: a store whose row 1 is the five schema cells
followed by a sixth non-empty cell `"extra"`.  `ensure_headers` sees a row
different from `expected` and calls `ws.update("A1:E1", [expected])`, which
rewrites only columns A through E, so cell F1 survives: after one call the
header row still does not equal the schema, and a second consecutive call
performs another write. -/
theorem ensure_headers_extra_cell_cex :
    (ensure_headers { header := expectedHeaders ++ ["extra"], rows := [] }).header ≠
        expectedHeaders ∧
      ensure_headers_writes
          (ensure_headers { header := expectedHeaders ++ ["extra"], rows := [] }) = true := by
  decide

/-- Claim C8 (amended): for every store whose row 1 has at most five cells,
one call to `ensure_headers` makes the header row equal the fixed schema and
a second consecutive call performs no write; and for every store whatsoever,
`ensure_headers` is idempotent as a state transformer (a second call leaves
the store unchanged) — but cells of row 1 beyond column E survive every
call, so a longer wrong header never becomes equal to the schema. -/
theorem ensure_headers_idem (s : Store) :
    (s.header.length ≤ 5 →
        (ensure_headers s).header = expectedHeaders ∧
        ensure_headers_writes (ensure_headers s) = false) ∧
      ensure_headers (ensure_headers s) = ensure_headers s := by
  constructor
  · intro hlen
    have hdrop : s.header.drop 5 = [] := List.drop_eq_nil_of_le hlen
    have hh : (ensure_headers s).header = expectedHeaders := by
      rw [ensure_headers_header, hdrop, List.append_nil]
    refine ⟨hh, ?_⟩
    simp [ensure_headers_writes, hh]
  · by_cases ht : (ensure_headers s).header = expectedHeaders
    · exact ensure_headers_of_eq _ ht
    · rw [ensure_headers_of_ne _ ht]
      have hd : (ensure_headers s).header.drop 5 = s.header.drop 5 := by
        rw [ensure_headers_header]
        exact List.drop_left expectedHeaders _
      rw [hd, ← List.append_nil (s.header.drop 5)]
      rw [show expectedHeaders ++ (s.header.drop 5 ++ []) = (ensure_headers s).header from by
        rw [List.append_nil, ← ensure_headers_header]]

/-- Claim C8 witness: for the concrete store with the one-cell wrong header
`["wrong"]`, one call yields the schema header, a second call writes
nothing, and the double call equals the single call. -/
theorem ensure_headers_idem_witness :
    ((ensure_headers { header := ["wrong"], rows := [] }).header = expectedHeaders ∧
        ensure_headers_writes (ensure_headers { header := ["wrong"], rows := [] }) = false) ∧
      ensure_headers (ensure_headers { header := ["wrong"], rows := [] }) =
        ensure_headers { header := ["wrong"], rows := [] } :=
  ⟨(ensure_headers_idem { header := ["wrong"], rows := [] }).1 (by decide),
   (ensure_headers_idem { header := ["wrong"], rows := [] }).2⟩

/-- Decomposition of `mark_rows` around the first row carrying the wanted
id: everything before it is untouched and id-free, everything after it is
untouched, and the matched row itself changes only its status cell. -/
theorem mark_rows_split (i : String) :
    ∀ l : List HelpRow, (∃ r ∈ l, r.id = i) →
      ∃ pre row post, l = pre ++ row :: post ∧ (∀ x ∈ pre, x.id ≠ i) ∧ row.id = i ∧
        mark_rows i l = pre ++ { row with status := "helped" } :: post
  | [], h => absurd h (by simp)
  | r :: rest, h => by
    by_cases hr : r.id = i
    · exact ⟨[], r, rest, rfl, by simp, hr, by simp [mark_rows, hr]⟩
    · have hrest : ∃ x ∈ rest, x.id = i := by
        rcases h with ⟨x, hx, hxi⟩
        rcases List.mem_cons.mp hx with h1 | h1
        · exact absurd (h1 ▸ hxi) hr
        · exact ⟨x, h1, hxi⟩
      rcases mark_rows_split i rest hrest with ⟨pre, row, post, he, hpre, hid, hm⟩
      refine ⟨r :: pre, row, post, by simp [he], ?_, hid, by simp [mark_rows, hr, hm]⟩
      intro x hx
      rcases List.mem_cons.mp hx with h1 | h1
      · exact h1 ▸ hr
      · exact hpre x h1

/-- Claim C6: when some row of the store carries the requested id,
`mark_as_helped` writes `"helped"` into the status cell of the first such
row in store order and changes nothing else — the other cells of that row,
all other rows and row 1 are exactly as before. -/
theorem mark_as_helped_frame (i : String) (s : Store)
    (h : ∃ row ∈ s.rows, row.id = i) :
    (mark_as_helped i s).header = s.header ∧
      ∃ pre row post,
        s.rows = pre ++ row :: post ∧ (∀ x ∈ pre, x.id ≠ i) ∧ row.id = i ∧
        (mark_as_helped i s).rows = pre ++ { row with status := "helped" } :: post := by
  refine ⟨rfl, ?_⟩
  simpa [mark_as_helped] using mark_rows_split i s.rows h

/-- Claim C6 witness: on a concrete three-row store containing id `"X"`,
`mark_as_helped "X"` keeps row 1 and the number of data rows. -/
theorem mark_as_helped_frame_witness :
    (mark_as_helped "X"
          { header := expectedHeaders,
            rows := [{ id := "a", name := "A", rating := 4, timestamp := "t1", status := "pending" },
                     { id := "X", name := "B", rating := 6, timestamp := "t2", status := "pending" },
                     { id := "c", name := "C", rating := 2, timestamp := "t3", status := "helped" }] }).header =
        expectedHeaders ∧
      (mark_as_helped "X"
          { header := expectedHeaders,
            rows := [{ id := "a", name := "A", rating := 4, timestamp := "t1", status := "pending" },
                     { id := "X", name := "B", rating := 6, timestamp := "t2", status := "pending" },
                     { id := "c", name := "C", rating := 2, timestamp := "t3", status := "helped" }] }).rows.length = 3 := by
  have h := mark_as_helped_frame "X"
    { header := expectedHeaders,
      rows := [{ id := "a", name := "A", rating := 4, timestamp := "t1", status := "pending" },
               { id := "X", name := "B", rating := 6, timestamp := "t2", status := "pending" },
               { id := "c", name := "C", rating := 2, timestamp := "t3", status := "helped" }] }
    (by decide)
  refine ⟨h.1, ?_⟩
  rcases h.2 with ⟨pre, row, post, he, _, _, hm⟩
  rw [hm, show (3 : Nat) = (pre ++ row :: post).length from by rw [← he]; rfl]
  simp

/-- A store violating the id-uniqueness invariant: two rows carry id `"X"`,
the first already helped, the second still pending. -/
def dupIdStore : Store :=
  { header := expectedHeaders,
    rows := [{ id := "X", name := "A", rating := 5, timestamp := "t1", status := "helped" },
             { id := "X", name := "B", rating := 5, timestamp := "t2", status := "pending" }] }

/-- Claim C5 counterexample: `dupIdStore` contains a pending row with id
`"X"`, yet after `mark_as_helped "X"` the id `"X"` still appears in the
pending list — the scan updates only the first matching row (here the
already-helped one) and `break`s, so the claim fails on stores where the id
is not unique. -/
theorem mark_as_helped_duplicate_cex :
    (∃ row ∈ dupIdStore.rows, row.id = "X" ∧ row.status = "pending") ∧
      "X" ∈ (listPending (mark_as_helped "X" dupIdStore)).map HelpRow.id := by
  decide

/-- After `mark_rows`, a list carrying the wanted id at most once has no row
with that id still in any status other than `"helped"`. -/
theorem mark_rows_unique_helped (i : String) :
    ∀ l : List HelpRow, l.countP (fun r => r.id == i) ≤ 1 →
      ∀ row ∈ mark_rows i l, row.id = i → row.status = "helped"
  | [], _, row, hrow, _ => absurd hrow (by simp [mark_rows])
  | r :: rest, hc, row, hrow, hid => by
    by_cases hr : r.id = i
    · rw [show mark_rows i (r :: rest) = { r with status := "helped" } :: rest from by
        simp [mark_rows, hr]] at hrow
      rcases List.mem_cons.mp hrow with h1 | h1
      · rw [h1]
      · exfalso
        have hz : rest.countP (fun r => r.id == i) = 0 := by
          rw [List.countP_cons_of_pos _ _ (by simpa using hr)] at hc
          omega
        have := (List.countP_eq_zero.mp hz) row h1
        simp [hid] at this
    · rw [show mark_rows i (r :: rest) = r :: mark_rows i rest from by
        simp [mark_rows, hr]] at hrow
      rcases List.mem_cons.mp hrow with h1 | h1
      · exact absurd hid (h1 ▸ hr)
      · refine mark_rows_unique_helped i rest ?_ row h1 hid
        rw [List.countP_cons_of_neg _ _ (by simpa using hr)] at hc
        exact hc

/-- Claim C5 (amended): for every store in which at most one row carries the
given id — in particular any store satisfying the id-uniqueness invariant —
after `mark_as_helped id` that id no longer appears in the pending list; and
for every store whatsoever, calling `mark_as_helped id` a second time leaves
the store exactly as after the first call (idempotent). -/
theorem mark_as_helped_removes_and_idem (i : String) (s : Store) :
    (s.rows.countP (fun r => r.id == i) ≤ 1 →
        ∀ row ∈ listPending (mark_as_helped i s), row.id ≠ i) ∧
      mark_as_helped i (mark_as_helped i s) = mark_as_helped i s := by
  constructor
  · intro hc row hrow hid
    have hmem : row ∈ pendingOnly (load_requests (mark_as_helped i s)) :=
      (List.mem_insertionSort reqLE).mp hrow
    rw [load_requests_eq] at hmem
    have h2 := List.mem_filter.mp hmem
    have h3 : row.status = "helped" :=
      mark_rows_unique_helped i s.rows hc row (by simpa [mark_as_helped] using h2.1) hid
    have h4 := h2.2
    rw [h3] at h4
    simp at h4
  · simp [mark_as_helped, mark_rows_idem]

/-- Claim C5 witness: on a concrete store whose only row has id `"a"` and is
pending, marking removes `"a"` from the pending list and a second call
changes nothing. -/
theorem mark_as_helped_removes_and_idem_witness :
    "a" ∉ (listPending (mark_as_helped "a"
        { header := expectedHeaders,
          rows := [{ id := "a", name := "A", rating := 4, timestamp := "t1", status := "pending" }] })).map
        HelpRow.id ∧
      mark_as_helped "a" (mark_as_helped "a"
          { header := expectedHeaders,
            rows := [{ id := "a", name := "A", rating := 4, timestamp := "t1", status := "pending" }] }) =
        mark_as_helped "a"
          { header := expectedHeaders,
            rows := [{ id := "a", name := "A", rating := 4, timestamp := "t1", status := "pending" }] } := by
  have h := mark_as_helped_removes_and_idem "a"
    { header := expectedHeaders,
      rows := [{ id := "a", name := "A", rating := 4, timestamp := "t1", status := "pending" }] }
  refine ⟨?_, h.2⟩
  intro hmem
  rcases List.mem_map.mp hmem with ⟨row, hrow, hidx⟩
  exact h.1 (by decide) row hrow hidx

/-! ### Stability of the pending-list sort -/

/-- Inserting a row that satisfies `p` in front of its equals: when every
`p`-row compares `reqLE` to every other `p`-row, `orderedInsert` places the
new row before all `p`-rows already present (they stood later in the
original order), so filtering by `p` sees it first. -/
theorem filter_orderedInsert_pos (p : HelpRow → Bool) (a : HelpRow)
    (hpa : p a = true) (hrel : ∀ b, p b = true → reqLE a b) :
    ∀ l : List HelpRow, (List.orderedInsert reqLE a l).filter p = a :: l.filter p
  | [] => by simp [List.orderedInsert, hpa]
  | b :: t => by
    by_cases hab : reqLE a b
    · rw [List.orderedInsert, if_pos hab, List.filter_cons_of_pos hpa]
    · have hpb : p b = false := by
        rcases Bool.eq_false_or_eq_true (p b) with h | h
        · exact absurd (hrel b h) hab
        · exact h
      rw [List.orderedInsert, if_neg hab, List.filter_cons_of_neg (by simp [hpb]),
        filter_orderedInsert_pos p a hpa hrel t, List.filter_cons_of_neg (by simp [hpb])]

/-- Inserting a row that fails `p` does not change the `p`-filtered view. -/
theorem filter_orderedInsert_neg (p : HelpRow → Bool) (a : HelpRow)
    (hpa : p a = false) :
    ∀ l : List HelpRow, (List.orderedInsert reqLE a l).filter p = l.filter p
  | [] => by simp [List.orderedInsert, hpa]
  | b :: t => by
    by_cases hab : reqLE a b
    · rw [List.orderedInsert, if_pos hab, List.filter_cons_of_neg (by simp [hpa])]
    · rw [List.orderedInsert, if_neg hab, List.filter_cons]
      rw [filter_orderedInsert_neg p a hpa t, ← List.filter_cons]

/-- Stability of the insertion sort embedding `sort_values`: filtering the
sorted list to any class of pairwise `reqLE`-equivalent rows (for example
the rows of one fixed (rating, timestamp) key) gives those rows in their
original order. -/
theorem filter_insertionSort (p : HelpRow → Bool)
    (hrel : ∀ x y, p x = true → p y = true → reqLE x y) :
    ∀ l : List HelpRow, (List.insertionSort reqLE l).filter p = l.filter p
  | [] => rfl
  | x :: t => by
    have ih := filter_insertionSort p hrel t
    by_cases hx : p x = true
    · rw [List.insertionSort, filter_orderedInsert_pos p x hx (fun b hb => hrel x b hx hb),
        ih, List.filter_cons_of_pos hx]
    · have hx0 : p x = false := by
        rcases Bool.eq_false_or_eq_true (p x) with h | h
        · exact absurd h hx
        · exact h
      rw [List.insertionSort, filter_orderedInsert_neg p x hx0, ih,
        List.filter_cons_of_neg (by simp [hx0])]

/-- The concrete store of the claim: requests (rating 8, t1), (rating 3,
t2), (rating 3, t0), in that store order. -/
def threeReqStore : Store :=
  { header := expectedHeaders,
    rows := [{ id := "i1", name := "A", rating := 8, timestamp := "t1", status := "pending" },
             { id := "i2", name := "B", rating := 3, timestamp := "t2", status := "pending" },
             { id := "i3", name := "C", rating := 3, timestamp := "t0", status := "pending" }] }

/-- Claim C3: for every store, the pending list contains exactly the rows
with status `"pending"` (a permutation of the filtered rows), is sorted
non-decreasing by (rating, timestamp), and is stable — the rows of any
fixed (rating, timestamp) key appear in their original store order; and the
concrete store (8,t1), (3,t2), (3,t0) lists as (3,t0), (3,t2), (8,t1). -/
theorem listPending_sorted_stable :
    (∀ s : Store,
        List.Sorted reqLE (listPending s) ∧
        List.Perm (listPending s) (s.rows.filter fun row => row.status == "pending") ∧
        ∀ (g : Int) (t : String),
          (listPending s).filter (fun row => row.rating == g && row.timestamp == t) =
            (s.rows.filter fun row => row.status == "pending").filter
              (fun row => row.rating == g && row.timestamp == t)) ∧
      listPending threeReqStore =
        [{ id := "i3", name := "C", rating := 3, timestamp := "t0", status := "pending" },
         { id := "i2", name := "B", rating := 3, timestamp := "t2", status := "pending" },
         { id := "i1", name := "A", rating := 8, timestamp := "t1", status := "pending" }] := by
  constructor
  · intro s
    refine ⟨List.sorted_insertionSort reqLE _, ?_, ?_⟩
    · unfold listPending
      rw [load_requests_eq]
      exact List.perm_insertionSort reqLE (pendingOnly s.rows)
    · intro g t
      unfold listPending
      rw [load_requests_eq]
      exact filter_insertionSort _ (fun x y hx hy => by
        simp only [Bool.and_eq_true, beq_iff_eq] at hx hy
        exact Or.inr ⟨by rw [hx.1, hy.1], by rw [hx.2, hy.2]⟩) _
  · decide

/-- The matching notion of the claim about a fresh submission: an entry of
the pending list carrying the submitted name and rating, status
`"pending"`, and an id that equals none of the ids of the previously
created rows (`prev`). -/
def matches_request (nm : String) (r : Int) (prev : List String) (row : HelpRow) : Bool :=
  row.name == nm && row.rating == r && row.status == "pending" && !(decide (row.id ∈ prev))

/-- Claim C4: for every valid (name, rating) with rating in [1,10],
submitting and then listing — with no intervening `mark_as_helped` — yields
a pending list with exactly one entry carrying that name and rating, status
`"pending"` and a freshly generated id different from the id of every
previously created row (freshness of the uuid is the hypothesis
`hfresh`). -/
theorem submit_then_listPending_unique (nm : String) (r : Int) (request_id now : String)
    (s : Store) (_hlo : 1 ≤ r) (_hhi : r ≤ 10)
    (hfresh : request_id ∉ s.rows.map HelpRow.id) :
    (listPending (add_help_request nm r request_id now s)).countP
        (matches_request nm r (s.rows.map HelpRow.id)) = 1 := by
  unfold listPending
  rw [List.Perm.countP_eq _ (List.perm_insertionSort reqLE _)]
  rw [load_requests_eq]
  rw [add_help_request_always_appends]
  unfold pendingOnly
  rw [List.filter_append, List.countP_append]
  have h0 : (List.filter (fun row => row.status == "pending") s.rows).countP
      (matches_request nm r (s.rows.map HelpRow.id)) = 0 := by
    rw [List.countP_eq_zero]
    intro a ha
    have hmem : a ∈ s.rows := (List.mem_filter.mp ha).1
    have hid : a.id ∈ s.rows.map HelpRow.id := List.mem_map_of_mem HelpRow.id hmem
    simp [matches_request, hid]
  have h1 : (List.filter (fun row => row.status == "pending")
        [{ id := request_id, name := nm, rating := r, timestamp := now,
           status := "pending" }]).countP
      (matches_request nm r (s.rows.map HelpRow.id)) = 1 := by
    simp [matches_request, hfresh]
  rw [h0, h1]

/-- Claim C4 witness: submitting ("Anthony", 5) with fresh uuid `"u1"` into
the empty store and listing yields exactly one matching pending entry. -/
theorem submit_then_listPending_unique_witness :
    (listPending (add_help_request "Anthony" 5 "u1" "t1"
          { header := expectedHeaders, rows := [] })).countP
        (matches_request "Anthony" 5
          (({ header := expectedHeaders, rows := [] } : Store).rows.map HelpRow.id)) = 1 :=
  submit_then_listPending_unique "Anthony" 5 "u1" "t1"
    { header := expectedHeaders, rows := [] } (by decide) (by decide) (by decide)
